import Mathlib

/-
  Verification development for the TCLMarket prediction-market backend.

  The betting-lifecycle state machine is embedded over a single sequentially
  updated store (users, bets, markets, ledger transactions), translated from:
    - backend/src/models/Transaction.js   (createTransaction, Market schema)
    - backend/src/models/Bet.js           (settle, refund)
    - backend/src/routes/bets.js          (POST / place bet, DELETE /:id cancel bet)
    - the markets route file              (POST /:id/resolve and its settlement loop)
    - the User model file                 (updateWinRate)
  Persistence is modeled as write-through: each mongoose save applies to the
  store in program order; a route handler that returns an HTTP error before
  reaching its mutation section leaves the store untouched, and an aborted
  per-bet settlement transaction is modeled as a full rollback to the state at
  startTransaction.  Monetary quantities are rationals, timestamps are integers
  in milliseconds.  The real-valued LMSR pricing formula (Math.exp) is analyzed
  separately in the Pricing namespace over the reals; inside the lifecycle model
  the sigmoid x to 1 / (1 + exp x) is abstracted as a parameter f, since no
  lifecycle claim depends on the numeric value of a recomputed price.
-/

namespace TCLMarket

inductive BetStatus where
  | active | won | lost | refunded
deriving DecidableEq, Repr

inductive MarketType where
  | binary | multiple | range
deriving DecidableEq, Repr

inductive MarketStatus where
  | mopen | closed | resolved | cancelled
deriving DecidableEq, Repr

/-- User document: the fields of the User schema that the lifecycle touches. -/
structure User where
  uid : Nat
  balance : ℚ
  totalBets : Nat
  winningBets : Nat
  totalWinnings : ℚ
  winRate : ℚ
deriving DecidableEq, Repr

/-- Bet document (models/Bet.js schema). -/
structure Bet where
  bid : Nat
  userId : Nat
  marketId : Nat
  option : String
  amount : ℚ
  oddsAtTime : ℚ
  potentialPayout : ℚ
  status : BetStatus
  createdAt : ℤ
  settledAt : Option ℤ
  actualPayout : ℚ
deriving DecidableEq, Repr

/-- Market document (Market schema in the models file). `currentOdds` is the
mongoose Map, rendered as an association list. -/
structure Market where
  mid : Nat
  options : List String
  mtype : MarketType
  status : MarketStatus
  currentOdds : List (String × ℚ)
  liquidity : ℚ
  totalVolume : ℚ
  endDate : ℤ
  resolution : Option String
  participantCount : Nat
deriving DecidableEq, Repr

/-- Ledger entry (Transaction schema). `amount` is the signed delta. -/
structure Txn where
  userId : Nat
  txType : String
  amount : ℚ
  balanceBefore : ℚ
  balanceAfter : ℚ
deriving DecidableEq, Repr

/-- The whole persisted store. `txns` is append-only, in creation order. -/
structure St where
  users : List User
  bets : List Bet
  markets : List Market
  txns : List Txn
deriving DecidableEq, Repr

def findUser (st : St) (uid : Nat) : Option User :=
  st.users.find? (fun u => u.uid == uid)

def findMarket (st : St) (mid : Nat) : Option Market :=
  st.markets.find? (fun m => m.mid == mid)

def findBet (st : St) (bid : Nat) : Option Bet :=
  st.bets.find? (fun b => b.bid == bid)

/-- Persist a user document (user.save()): replaces the stored document with
the same id. -/
def updateUser (st : St) (u : User) : St :=
  { st with users := st.users.map (fun v => if v.uid == u.uid then u else v) }

/-- Persist a market document (market.save()). -/
def updateMarket (st : St) (m : Market) : St :=
  { st with markets := st.markets.map (fun v => if v.mid == m.mid then m else v) }

/-- Persist a bet document (bet.save()). -/
def updateBet (st : St) (b : Bet) : St :=
  { st with bets := st.bets.map (fun v => if v.bid == b.bid then b else v) }

/-- The `enum` of the Transaction schema `type` field.  Note that it does not
contain the string "loss" that the settlement loop passes for lost bets. -/
def txTypeEnum : List String :=
  ["bet", "win", "refund", "admin_adjustment", "deposit", "withdrawal"]

/-- Effect part of Transaction.createTransaction: load the user, record
balanceBefore/After from that load, apply the delta to the balance and save the
user, then append the entry.  Mirrors Transaction.js lines 57 to 76 (the caller
facing wrapper `createTransaction` below adds the failure cases). -/
def createTransactionEffect (st : St) (userId : Nat) (ttype : String) (amount : ℚ) : St :=
  match findUser st userId with
  | none => st
  | some user =>
    let txn : Txn :=
      { userId := userId, txType := ttype, amount := amount,
        balanceBefore := user.balance, balanceAfter := user.balance + amount }
    let st1 := updateUser st { user with balance := user.balance + amount }
    { st1 with txns := st1.txns ++ [txn] }

/-- Transaction.createTransaction.  Throws when the user is missing, and the
final transaction.save() is rejected by mongoose when `type` is not in the
schema enum.  An error propagates to the enclosing session, which aborts; the
abort is modeled as a rollback to the caller snapshot, so the error branch
carries no state. -/
def createTransaction (st : St) (userId : Nat) (ttype : String) (amount : ℚ) :
    Except String St :=
  match findUser st userId with
  | none => .error "User not found"
  | some _ =>
    if ttype ∈ txTypeEnum then
      .ok (createTransactionEffect st userId ttype amount)
    else
      .error "Transaction validation failed: type is not a valid enum value"

/-- market.isOpen() (Market model): open status and not past the end date. -/
def Market.isOpen (m : Market) (now : ℤ) : Bool :=
  m.status == .mopen && decide (now < m.endDate)

/-- market.resolve(resolution) (Market model). -/
def Market.resolve (m : Market) (resolution : String) : Market :=
  { m with status := .resolved, resolution := some resolution }

/-- Active bets of a market, as queried by updateOdds
(Bet.find with marketId and status active). -/
def activeBetsOn (st : St) (mid : Nat) : List Bet :=
  st.bets.filter (fun b => b.marketId == mid && b.status == BetStatus.active)

/-- poolByOption of updateOdds: summed stake of the given active bets on one
option. -/
def poolOf (bets : List Bet) (o : String) : ℚ :=
  ((bets.filter (fun b => b.option == o)).map (fun b => b.amount)).sum

/-- The distinct option keys of poolByOption. -/
def betOptions (bets : List Bet) : List String :=
  (bets.map (fun b => b.option)).dedup

/-- market.calculateInitialOdds(): binary markets give 0.5 to the first two
options; otherwise every option gets 1 / options.length. -/
def calcInitialOddsQ (options : List String) (t : MarketType) : List (String × ℚ) :=
  if t = .binary then
    [(options.getD 0 "", 1/2), (options.getD 1 "", 1/2)]
  else
    options.map (fun o => (o, 1 / (options.length : ℚ)))

/-- market.updateOdds() as used inside the bet routes, over the store.  The
real sigmoid x to 1 / (1 + Math.exp x) is the parameter f (its values never
matter to a lifecycle claim; the real-valued formula is verified in the
Pricing namespace).  With totalPool zero the method assigns the initial odds
and returns early (no totalVolume update); otherwise options carrying bets get
f ((otherPool - pool) / liquidity), the remaining options (those whose entry
is missing, the `!odds[option]` test) get f (totalPool / liquidity), and
totalVolume becomes the pool total, then the market is saved. -/
def updateOdds (f : ℚ → ℚ) (st : St) (m : Market) : St :=
  let bets := activeBetsOn st m.mid
  let total : ℚ := (bets.map (fun b => b.amount)).sum
  if total = 0 then
    updateMarket st { m with currentOdds := calcInitialOddsQ m.options m.mtype }
  else
    let keys := betOptions bets ++ m.options.filter (fun o => decide (o ∉ betOptions bets))
    let oddsVal : String → ℚ := fun o =>
      let pool := poolOf bets o
      let v := f (((total - pool) - pool) / m.liquidity)
      if o ∈ betOptions bets ∧ v ≠ 0 then v else f (total / m.liquidity)
    updateMarket st
      { m with currentOdds := keys.map (fun o => (o, oddsVal o)), totalVolume := total }

/-- Fresh id for a new bet document. -/
def newBetId (st : St) : Nat :=
  (st.bets.map (fun b => b.bid)).foldr max 0 + 1

/-- The precondition ladder of POST / in routes/bets.js, in source order,
returning the first error: express-validator input checks, balance check,
market lookup, isOpen, option membership, the one-active-bet-per-market rule,
and odds availability (`!currentOdds`, so a missing or zero entry). -/
def placeBetChecks (st : St) (userId marketId : Nat) (option : String) (amount : ℚ)
    (now : ℤ) : Option String :=
  if ¬ (amount.den = 1 ∧ 1 ≤ amount ∧ option ≠ "") then some "Validation failed"
  else match findUser st userId with
  | none => some "Unauthorized"
  | some user =>
    if user.balance < amount then some "Insufficient balance"
    else match findMarket st marketId with
    | none => some "Market not found"
    | some market =>
      if ¬ market.isOpen now then some "Market is not open for betting"
      else if option ∉ market.options then some "Invalid betting option"
      else if st.bets.any (fun b =>
          b.userId == userId && b.marketId == marketId && b.status == BetStatus.active) then
        some "You already have an active bet on this market"
      else match market.currentOdds.lookup option with
      | none => some "Odds not available for this option"
      | some odds =>
        if odds = 0 then some "Odds not available for this option"
        else none

/-- The mutation section of POST /: create the bet with oddsAtTime from the
market map and potentialPayout = amount / oddsAtTime, debit the balance and
bump totalBets on the route user object, save user and bet, call
createTransaction (type bet, delta -amount; its own user load applies the
delta a second time), recompute odds, then store the distinct-bettor count as
participantCount. -/
def placeBetEffect (f : ℚ → ℚ) (st : St) (userId marketId : Nat) (option : String)
    (amount : ℚ) (now : ℤ) : St :=
  match findUser st userId, findMarket st marketId with
  | some user, some market =>
    let odds := (market.currentOdds.lookup option).getD 0
    let bet : Bet :=
      { bid := newBetId st, userId := userId, marketId := marketId, option := option,
        amount := amount, oddsAtTime := odds, potentialPayout := amount / odds,
        status := .active, createdAt := now, settledAt := none, actualPayout := 0 }
    let st1 := updateUser st
      { user with balance := user.balance - amount, totalBets := user.totalBets + 1 }
    let st2 := { st1 with bets := st1.bets ++ [bet] }
    let st3 := createTransactionEffect st2 userId "bet" (-amount)
    let st4 := updateOdds f st3 market
    match findMarket st4 marketId with
    | none => st4
    | some m4 =>
      let pc := ((st4.bets.filter (fun b => b.marketId == marketId)).map
        (fun b => b.userId)).dedup.length
      updateMarket st4 { m4 with participantCount := pc }
  | _, _ => st

/-- POST / (place a bet): every precondition failure returns before the
mutation section, so the store is unchanged on error; after the checks all
writes succeed (the transaction type bet is in the schema enum). -/
def placeBet (f : ℚ → ℚ) (st : St) (userId marketId : Nat) (option : String)
    (amount : ℚ) (now : ℤ) : Except String St :=
  match placeBetChecks st userId marketId option amount now with
  | some e => .error e
  | none => .ok (placeBetEffect f st userId marketId option amount now)

/-- bet.settle(marketResolution) (models/Bet.js lines 63 to 73): winning
option gets status won and actualPayout = potentialPayout, otherwise status
lost and actualPayout = 0; settledAt is stamped in both cases. -/
def Bet.settle (b : Bet) (marketResolution : String) (now : ℤ) : Bet :=
  if b.option = marketResolution then
    { b with settledAt := some now, status := .won, actualPayout := b.potentialPayout }
  else
    { b with settledAt := some now, status := .lost, actualPayout := 0 }

/-- bet.refund() (models/Bet.js lines 76 to 80): status refunded and
actualPayout = amount (the stake, not zero). -/
def Bet.refund (b : Bet) (now : ℤ) : Bet :=
  { b with status := .refunded, actualPayout := b.amount, settledAt := some now }

/-- user.updateWinRate() (User model): winRate = winningBets / totalBets * 100,
only when totalBets is positive. -/
def updateWinRate (u : User) : User :=
  if 0 < u.totalBets then
    { u with winRate := (u.winningBets : ℚ) / (u.totalBets : ℚ) * 100 }
  else u

/-- The precondition ladder of DELETE /:id in routes/bets.js, in source order:
bet lookup, ownership, active status, market open, and the five-minute window
(rejected only when the age strictly exceeds 5 * 60 * 1000 ms).  The user
lookup inside the mutation section is listed here so the effect below is
total; the auth middleware guarantees it succeeds. -/
def cancelBetChecks (st : St) (userId betId : Nat) (now : ℤ) : Option String :=
  match findBet st betId with
  | none => some "Bet not found"
  | some bet =>
    if bet.userId ≠ userId then some "Access denied"
    else if bet.status ≠ .active then some "Cannot cancel settled bet"
    else match findMarket st bet.marketId with
    | none => some "Market not found"
    | some market =>
      if ¬ market.isOpen now then some "Cannot cancel bet after market has closed"
      else if now - bet.createdAt > 5 * 60 * 1000 then
        some "Can only cancel bets within 5 minutes of placement"
      else match findUser st userId with
      | none => some "User not found"
      | some _ => none

/-- The mutation section of DELETE /:id: refund the bet, credit the stake back
on the route user object and save it, call createTransaction (type refund,
delta +amount; its own user load applies the delta a second time), then
recompute the market odds (the pool no longer contains the refunded stake). -/
def cancelBetEffect (f : ℚ → ℚ) (st : St) (userId betId : Nat) (now : ℤ) : St :=
  match findBet st betId with
  | none => st
  | some bet =>
    match findMarket st bet.marketId with
    | none => st
    | some market =>
      let st1 := updateBet st (bet.refund now)
      match findUser st1 userId with
      | none => st1
      | some user =>
        let st2 := updateUser st1 { user with balance := user.balance + bet.amount }
        let st3 := createTransactionEffect st2 userId "refund" bet.amount
        updateOdds f st3 market

/-- DELETE /:id (cancel a bet). -/
def cancelBet (f : ℚ → ℚ) (st : St) (userId betId : Nat) (now : ℤ) : Except String St :=
  match cancelBetChecks st userId betId now with
  | some e => .error e
  | none => .ok (cancelBetEffect f st userId betId now)

/-- One iteration body of the settlement loop of POST /:id/resolve (the
markets route), as it would execute once a session exists: settle the bet and
save it; reload the user; on a win credit actualPayout, accumulate
totalWinnings and winningBets; always increment totalBets, recompute the win
rate and save; then createTransaction with type win for winners and the string
loss otherwise, and delta actualPayout - amount.  The type loss is not in the
Transaction schema enum, so for a lost bet the final save throws, the catch
block aborts the session, and the unit rolls back (error branch, no state). -/
def settleBetStep (st : St) (betId : Nat) (resolution : String) (now : ℤ) :
    Except String St :=
  match findBet st betId with
  | none => .error "Bet not found"
  | some bet =>
    let bet1 := bet.settle resolution now
    let st1 := updateBet st bet1
    match findUser st1 bet.userId with
    | none => .error "User not found"
    | some user =>
      let user1 :=
        if bet1.status = .won then
          { user with balance := user.balance + bet1.actualPayout,
                      totalWinnings := user.totalWinnings + (bet1.actualPayout - bet1.amount),
                      winningBets := user.winningBets + 1 }
        else user
      let user2 := updateWinRate { user1 with totalBets := user1.totalBets + 1 }
      let st2 := updateUser st1 user2
      createTransaction st2 bet.userId
        (if bet1.status = .won then "win" else "loss") (bet1.actualPayout - bet1.amount)

/-- POST /:id/resolve (markets route).  After validation the market is
resolved and saved; the handler then loads the active bets and enters the
settlement loop.  The markets route module never imports mongoose, so the
first loop iteration throws ReferenceError at `mongoose.startSession()`
(before the per-bet try block), the outer catch returns a 500 error, and no
bet is settled, although the market was already saved as resolved.  With no
active bets the loop body never runs and the handler responds successfully. -/
def resolveMarket (st : St) (marketId : Nat) (resolution : String) :
    St × Except String Unit :=
  if resolution = "" then (st, .error "Validation failed")
  else match findMarket st marketId with
  | none => (st, .error "Market not found")
  | some market =>
    if market.status ≠ .mopen ∧ market.status ≠ .closed then
      (st, .error "Market cannot be resolved")
    else if resolution ∉ market.options then
      (st, .error "Invalid resolution option")
    else
      let st1 := updateMarket st (market.resolve resolution)
      if (activeBetsOn st1 marketId).isEmpty then (st1, .ok ())
      else (st1, .error "ReferenceError: mongoose is not defined")

namespace Pricing

/-- A bet as seen by market.updateOdds: its option, stake and status.  Stakes
are reals here because the prices produced from them go through Math.exp,
modeled by the real exponential. -/
structure PBet where
  option : String
  amount : ℝ
  status : BetStatus

/-- The status-active filter of the Bet.find query in updateOdds. -/
def activeP (bets : List PBet) : List PBet :=
  bets.filter (fun b => b.status == BetStatus.active)

/-- poolByOption for one option. -/
def pool (bets : List PBet) (o : String) : ℝ :=
  ((bets.filter (fun b => b.option == o)).map (fun b => b.amount)).sum

/-- totalPool: the sum of all poolByOption values, that is of all active
stakes. -/
def totalPool (bets : List PBet) : ℝ :=
  (bets.map (fun b => b.amount)).sum

/-- Whether an option carries at least one active bet, that is whether it is a
key of poolByOption. -/
def hasBetOn (bets : List PBet) (o : String) : Bool :=
  bets.any (fun b => b.option == o)

/-- The per-option price of the first updateOdds loop:
1 / (1 + exp ((otherPool - pool) / liquidity)) with otherPool =
totalPool - pool. -/
noncomputable def lmsr (liquidity T p : ℝ) : ℝ :=
  1 / (1 + Real.exp (((T - p) - p) / liquidity))

/-- calculateInitialOdds as the value stored for one option: binary markets
assign 0.5 to options[0] and options[1], other types assign
1 / options.length to every option; options outside the constructed map read
as 0. -/
noncomputable def initialOddsPrice (options : List String) (t : MarketType)
    (o : String) : ℝ :=
  if t = .binary then
    if o = options.getD 0 "" ∨ o = options.getD 1 "" then 1/2 else 0
  else if o ∈ options then 1 / (options.length : ℝ) else 0

/-- The value updateOdds stores for one option.  With totalPool zero it falls
back to calculateInitialOdds.  Otherwise the first loop prices every option
carrying bets with the lmsr formula; the second loop walks market.options and
replaces a missing or zero entry (`!odds[option]`) with
1 / (1 + exp (totalPool / liquidity)); options in neither set read as 0. -/
noncomputable def updateOddsPrice (options : List String) (t : MarketType)
    (liquidity : ℝ) (bets : List PBet) (o : String) : ℝ :=
  let ab := activeP bets
  let T := totalPool ab
  if T = 0 then initialOddsPrice options t o
  else if hasBetOn ab o then
    if o ∈ options ∧ lmsr liquidity T (pool ab o) = 0 then
      1 / (1 + Real.exp (T / liquidity))
    else lmsr liquidity T (pool ab o)
  else if o ∈ options then 1 / (1 + Real.exp (T / liquidity))
  else 0

end Pricing

/-- Sum of the ledger deltas recorded for one user, in creation order. -/
def ledgerSum (st : St) (uid : Nat) : ℚ :=
  ((st.txns.filter (fun t => t.userId == uid)).map (fun t => t.amount)).sum

/-- Concrete stand-in for the sigmoid parameter of the lifecycle model. -/
def sigHalf : ℚ → ℚ := fun _ => 1/2

/-- A fresh user with the default starting balance of 1000. -/
def userA : User := { uid := 1, balance := 1000, totalBets := 0, winningBets := 0,
                      totalWinnings := 0, winRate := 0 }

/-- An open binary yes/no market with the default liquidity and initial odds. -/
def marketYN : Market :=
  { mid := 1, options := ["yes", "no"], mtype := .binary, status := .mopen,
    currentOdds := [("yes", 1/2), ("no", 1/2)], liquidity := 10000, totalVolume := 0,
    endDate := 1000000000, resolution := none, participantCount := 0 }

/-- Store with one fresh user and one open market, before any bet. -/
def stFresh : St := { users := [userA], bets := [], markets := [marketYN], txns := [] }

/-- An active 100-unit bet of user 1 on yes, placed at time 0 at odds 0.5. -/
def betYes : Bet :=
  { bid := 1, userId := 1, marketId := 1, option := "yes", amount := 100,
    oddsAtTime := 1/2, potentialPayout := 200, status := .active, createdAt := 0,
    settledAt := none, actualPayout := 0 }

/-- Store in which user 1 already holds the active bet betYes. -/
def stActive : St :=
  { users := [{ userA with balance := 900, totalBets := 1 }], bets := [betYes],
    markets := [marketYN], txns := [] }

/-- An active 50-unit bet of user 2 on no (the losing option of the C2
scenario). -/
def betNo : Bet :=
  { bid := 1, userId := 2, marketId := 1, option := "no", amount := 50,
    oddsAtTime := 1/2, potentialPayout := 100, status := .active, createdAt := 0,
    settledAt := none, actualPayout := 0 }

/-- Store for the lost-bet settlement scenario: user 2 holds betNo on the open
market, and the market is about to resolve to yes. -/
def stLost : St :=
  { users := [{ uid := 2, balance := 500, totalBets := 1, winningBets := 0,
                totalWinnings := 0, winRate := 0 }],
    bets := [betNo], markets := [marketYN], txns := [] }

/-- Store with three users each holding an active bet on the same market, for
the settlement-isolation scenario. -/
def stThree : St :=
  { users := [{ uid := 1, balance := 900, totalBets := 1, winningBets := 0,
                totalWinnings := 0, winRate := 0 },
              { uid := 2, balance := 950, totalBets := 1, winningBets := 0,
                totalWinnings := 0, winRate := 0 },
              { uid := 3, balance := 970, totalBets := 1, winningBets := 0,
                totalWinnings := 0, winRate := 0 }],
    bets := [{ bid := 1, userId := 1, marketId := 1, option := "yes", amount := 100,
               oddsAtTime := 1/2, potentialPayout := 200, status := .active,
               createdAt := 0, settledAt := none, actualPayout := 0 },
             { bid := 2, userId := 2, marketId := 1, option := "no", amount := 50,
               oddsAtTime := 1/2, potentialPayout := 100, status := .active,
               createdAt := 0, settledAt := none, actualPayout := 0 },
             { bid := 3, userId := 3, marketId := 1, option := "yes", amount := 30,
               oddsAtTime := 1/2, potentialPayout := 60, status := .active,
               createdAt := 0, settledAt := none, actualPayout := 0 }],
    markets := [marketYN], txns := [] }

/-- Success observer: the proposition p holds of the state a succeeded
operation produced; an errored operation yields False. -/
def onOk (e : Except String St) (p : St → Prop) : Prop :=
  match e with
  | .ok s => p s
  | .error _ => False

/-- The store produced by placing the 100-unit yes bet of user 1 on stFresh:
the route debit and the ledger debit both applied, leaving balance 800 while
the single ledger entry records a delta of -100. -/
def stPlaced : St :=
  { users := [{ uid := 1, balance := 800, totalBets := 1, winningBets := 0,
                totalWinnings := 0, winRate := 0 }],
    bets := [{ bid := 1, userId := 1, marketId := 1, option := "yes", amount := 100,
               oddsAtTime := 1/2, potentialPayout := 200, status := .active,
               createdAt := 0, settledAt := none, actualPayout := 0 }],
    markets := [{ marketYN with
                  currentOdds := [("yes", 1/2), ("no", 1/2)],
                  totalVolume := 100, participantCount := 1 }],
    txns := [{ userId := 1, txType := "bet", amount := -100, balanceBefore := 900,
               balanceAfter := 800 }] }

/-- The store produced by running the settlement loop body on stPlaced with
resolution yes: the bet wins 200, totalBets reaches 2 and the win rate is
recomputed as 1 / 2 * 100. -/
def stSettled : St :=
  { users := [{ uid := 1, balance := 1100, totalBets := 2, winningBets := 1,
                totalWinnings := 100, winRate := 50 }],
    bets := [{ bid := 1, userId := 1, marketId := 1, option := "yes", amount := 100,
               oddsAtTime := 1/2, potentialPayout := 200, status := .won,
               createdAt := 0, settledAt := some 5, actualPayout := 200 }],
    markets := [{ marketYN with
                  currentOdds := [("yes", 1/2), ("no", 1/2)],
                  totalVolume := 100, participantCount := 1 }],
    txns := [{ userId := 1, txType := "bet", amount := -100, balanceBefore := 900,
               balanceAfter := 800 },
             { userId := 1, txType := "win", amount := 100, balanceBefore := 1000,
               balanceAfter := 1100 }] }

/-- Three-option market option list used in the pricing counterexample. -/
def opts3 : List String := ["a", "b", "c"]

/-- Two equal active stakes on the first two options of opts3; option c
carries no bet. -/
def pbets2 : List Pricing.PBet :=
  [{ option := "a", amount := 100, status := .active },
   { option := "b", amount := 100, status := .active }]

/-- One active stake on yes, for pricing witnesses. -/
def pbets1 : List Pricing.PBet :=
  [{ option := "yes", amount := 100, status := .active }]

/-- Claim C1.  The claim states that for place and cancel sequences the sum of
a user ledger deltas equals balance minus initial balance, and that replaying
the ledger reproduces the balance.  The code violates this: a single
successful placeBet from the initial balance 1000 leaves balance 800 (the
route debits the stake and Transaction.createTransaction debits it again)
while the only ledger entry carries amountDelta -100, so the recorded deltas
sum to -100 although the balance moved by -200, and replay from 1000 gives
900, not 800. -/
theorem c1_ledger_vs_balance_divergence :
    onOk (placeBet sigHalf stFresh 1 1 "yes" 100 0) (fun s =>
      ledgerSum s 1 = -100
      ∧ (findUser s 1).map (fun u => u.balance) = some 800
      ∧ ∀ t ∈ s.txns, t.balanceAfter = t.balanceBefore + t.amount)
    ∧ ¬ ((800 : ℚ) - 1000 = -100) := by
  have h1 : ("yes" : String) ≠ "" := by decide
  have h2 : ("no" : String) ≠ "yes" := by decide
  constructor
  · norm_num [placeBet, placeBetChecks, placeBetEffect, stFresh, userA, marketYN,
      findUser, findMarket, Market.isOpen, createTransactionEffect, updateUser,
      updateOdds, updateMarket, activeBetsOn, betOptions, poolOf, newBetId,
      calcInitialOddsQ, ledgerSum, sigHalf, List.lookup, List.filter, List.find?,
      List.dedup, onOk, h1, h2]
  · norm_num

/-- Claim C2.  The claim states that settling an active bet on a losing option
sets status lost with actualPayout 0, leaves the balance unchanged and appends
a ledger entry with amountDelta 0.  The code diverges: the resolve handler
crashes before settling anything (mongoose is not imported in the markets
route), leaving the lost bet active with no ledger entry; and the loop body
itself, run directly, aborts because it passes transaction type loss, which
the Transaction schema enum rejects, after computing the non-zero delta
actualPayout - amount = -50. -/
theorem c2_lost_bet_settlement_diverges :
    (resolveMarket stLost 1 "yes").2 = .error "ReferenceError: mongoose is not defined"
    ∧ (findMarket (resolveMarket stLost 1 "yes").1 1).map (fun m => m.status)
        = some MarketStatus.resolved
    ∧ (resolveMarket stLost 1 "yes").1.bets = [betNo]
    ∧ (resolveMarket stLost 1 "yes").1.txns = []
    ∧ settleBetStep (resolveMarket stLost 1 "yes").1 1 "yes" 5
        = .error "Transaction validation failed: type is not a valid enum value"
    ∧ "loss" ∉ txTypeEnum
    ∧ (betNo.settle "yes" 5).actualPayout - betNo.amount = -50
    ∧ ¬ ((-50 : ℚ) = 0) := by
  have h0 : ("yes" : String) ≠ "" := by decide
  have h2 : ("no" : String) ≠ "yes" := by decide
  have h3 : BetStatus.lost ≠ BetStatus.won := by decide
  have h4 : ("loss" : String) ∉ txTypeEnum := by decide
  refine ⟨?_, ?_, ?_, ?_, ?_, by decide, ?_, by norm_num⟩ <;>
    norm_num [resolveMarket, settleBetStep, stLost, betNo, marketYN, findMarket,
      findBet, findUser, Market.resolve, activeBetsOn, updateMarket, updateBet,
      updateUser, updateWinRate, Bet.settle, createTransaction,
      createTransactionEffect, List.filter, List.find?, List.isEmpty,
      h0, h2, h3, h4]

/-- Claim C3.  The claim states that per-bet settlement failures during market
resolution are isolated, all other active bets still settling.  The code
violates this: the markets route never imports mongoose, so the settlement
loop throws at its first iteration, before the per-bet try block, and with
three active bets the resolve request resolves the market yet settles none of
them (every bet stays active, no user or ledger row changes). -/
theorem c3_no_bet_settles_on_resolve :
    (resolveMarket stThree 1 "yes").2 = .error "ReferenceError: mongoose is not defined"
    ∧ (findMarket (resolveMarket stThree 1 "yes").1 1).map (fun m => m.status)
        = some MarketStatus.resolved
    ∧ (resolveMarket stThree 1 "yes").1.bets.all
        (fun b => b.status == BetStatus.active) = true
    ∧ (resolveMarket stThree 1 "yes").1.users = stThree.users
    ∧ (resolveMarket stThree 1 "yes").1.txns = [] := by
  have h0 : ("yes" : String) ≠ "" := by decide
  refine ⟨?_, ?_, ?_, ?_, ?_⟩ <;>
    norm_num [resolveMarket, stThree, marketYN, findMarket, Market.resolve,
      activeBetsOn, updateMarket, List.filter, List.find?, List.isEmpty, h0]

/-- Claim C7 counterexample.  The claim states that every terminally settled
bet has actualPayout equal to potentialPayout exactly when won and 0
otherwise; but bet.refund() puts a bet into the terminal refunded status with
actualPayout equal to the stake (here 100), which is neither 0 nor the
potential payout 200. -/
theorem c7_refunded_bet_payout_is_stake :
    (betYes.refund 7).status = .refunded
    ∧ (betYes.refund 7).actualPayout = 100
    ∧ ¬ ((betYes.refund 7).actualPayout = 0)
    ∧ ¬ ((betYes.refund 7).actualPayout = (betYes.refund 7).potentialPayout) := by
  refine ⟨rfl, rfl, ?_, ?_⟩ <;> norm_num [Bet.refund, betYes]

/-- Claim C7 as amended.  A bet settled through bet.settle gets status won and
actualPayout = potentialPayout exactly when its option matches the resolution,
and status lost with actualPayout 0 otherwise; a refunded bet gets status
refunded with actualPayout equal to its stake amount (not 0). -/
theorem c7_amended_terminal_payouts (b : Bet) (res : String) (now : ℤ) :
    (b.settle res now).status = (if b.option = res then BetStatus.won else BetStatus.lost)
    ∧ (b.settle res now).actualPayout = (if b.option = res then b.potentialPayout else 0)
    ∧ (b.refund now).status = .refunded
    ∧ (b.refund now).actualPayout = b.amount := by
  unfold Bet.settle Bet.refund
  by_cases h : b.option = res <;> simp [h]

/-- Claim C8 counterexample.  The claim states that a cancel at exactly five
minutes after placement is rejected; but the route only rejects when the age
strictly exceeds 5 * 60 * 1000 ms, so at exactly 300000 ms the cancel
succeeds. -/
theorem c8_cancel_at_five_minutes_succeeds :
    (cancelBet sigHalf stActive 1 1 300000).isOk = true := by
  norm_num [cancelBet, cancelBetChecks, stActive, betYes, userA, marketYN, findBet,
    findMarket, findUser, Market.isOpen, List.find?, Except.isOk, Except.toBool]

/-- Claim C8 as amended.  For an owned active bet on an open market, cancel
succeeds exactly when the elapsed time since placement is at most five
minutes: it succeeds at 4:59 and also at exactly 5:00, and is rejected only
strictly after 5:00 (the route tests betAge > 5 * 60 * 1000). -/
theorem c8_amended_cancel_window (f : ℚ → ℚ) (st : St) (userId betId : Nat) (now : ℤ)
    (bet : Bet) (mkt : Market)
    (hb : findBet st betId = some bet) (hown : bet.userId = userId)
    (hact : bet.status = .active) (hm : findMarket st bet.marketId = some mkt)
    (hopen : mkt.isOpen now = true) (hu : (findUser st userId).isSome = true) :
    ((cancelBet f st userId betId now).isOk = true)
      ↔ now - bet.createdAt ≤ 5 * 60 * 1000 := by
  obtain ⟨u, hu'⟩ := Option.isSome_iff_exists.mp hu
  unfold cancelBet cancelBetChecks
  simp only [hb, hown, hact, hm, hopen, hu', ne_eq, not_true_eq_false, if_false,
    Bool.not_eq_true]
  rcases lt_or_le (5 * 60 * 1000 : ℤ) (now - bet.createdAt) with hage | hage
  · rw [if_pos hage]
    simp only [Except.isOk, Except.toBool]
    constructor
    · intro h
      simp at h
    · intro h
      omega
  · rw [if_neg (not_lt.mpr hage)]
    simp only [Except.isOk, Except.toBool]
    constructor
    · intro _
      omega
    · intro _
      trivial

/-- Claim C8 amended witness: the concrete cancel of betYes at 4:59 after
placement satisfies the window characterization. -/
theorem c8_amended_cancel_window_witness :
    findBet stActive 1 = some betYes
    ∧ betYes.userId = 1
    ∧ betYes.status = .active
    ∧ findMarket stActive betYes.marketId = some marketYN
    ∧ marketYN.isOpen 299000 = true
    ∧ (findUser stActive 1).isSome = true
    ∧ (((cancelBet sigHalf stActive 1 1 299000).isOk = true)
        ↔ (299000 : ℤ) - betYes.createdAt ≤ 5 * 60 * 1000) := by
  refine ⟨rfl, rfl, rfl, rfl, by decide, rfl, ?_⟩
  exact c8_amended_cancel_window sigHalf stActive 1 1 299000 betYes marketYN
    rfl rfl rfl rfl (by decide) rfl

/-- Claim C9.  Whenever a user already holds an active bet on a market, any
further placeBet by that user on that market fails: the handler returns an
error before its mutation section (the duplicate-bet rule, or an earlier
precondition, rejects first), so the balance, bet store and market are
untouched. -/
theorem c9_duplicate_active_bet_rejected (f : ℚ → ℚ) (st : St) (userId marketId : Nat)
    (o : String) (amount : ℚ) (now : ℤ)
    (h : ∃ b ∈ st.bets, b.userId = userId ∧ b.marketId = marketId
          ∧ b.status = BetStatus.active) :
    (placeBet f st userId marketId o amount now).isOk = false := by
  have hany : st.bets.any (fun b =>
      b.userId == userId && b.marketId == marketId && b.status == BetStatus.active)
        = true := by
    obtain ⟨b, hb, h1, h2, h3⟩ := h
    exact List.any_eq_true.2 ⟨b, hb, by simp [h1, h2, h3]⟩
  unfold placeBet
  cases hc : placeBetChecks st userId marketId o amount now with
  | some e => simp [Except.isOk, Except.toBool]
  | none =>
    exfalso
    unfold placeBetChecks at hc
    repeat' split at hc
    all_goals simp_all

/-- Claim C9 witness: user 1 holds the active betYes on market 1 in stActive,
and a second placeBet by user 1 on market 1 fails. -/
theorem c9_duplicate_active_bet_rejected_witness :
    (∃ b ∈ stActive.bets, b.userId = 1 ∧ b.marketId = 1 ∧ b.status = BetStatus.active)
    ∧ (placeBet sigHalf stActive 1 1 "no" 50 10).isOk = false := by
  have h : ∃ b ∈ stActive.bets, b.userId = 1 ∧ b.marketId = 1
      ∧ b.status = BetStatus.active := ⟨betYes, by simp [stActive], rfl, rfl, rfl⟩
  exact ⟨h, c9_duplicate_active_bet_rejected sigHalf stActive 1 1 "no" 50 10 h⟩

theorem findUser_updateMarket (st : St) (m : Market) (x : Nat) :
    findUser (updateMarket st m) x = findUser st x := rfl

theorem updateUser_bets (st : St) (u : User) : (updateUser st u).bets = st.bets := rfl

theorem updateMarket_bets (st : St) (m : Market) :
    (updateMarket st m).bets = st.bets := rfl

theorem findUser_updateBet (st : St) (b : Bet) (x : Nat) :
    findUser (updateBet st b) x = findUser st x := rfl

theorem findUser_updateOdds (f : ℚ → ℚ) (st : St) (m : Market) (x : Nat) :
    findUser (updateOdds f st m) x = findUser st x := by
  simp only [updateOdds]
  split <;> rfl

theorem find?_uid_replace (l : List User) (u : User) (x : Nat) (hx : u.uid = x)
    (h : (l.find? (fun v => v.uid == x)).isSome = true) :
    (l.map (fun v => if v.uid == u.uid then u else v)).find? (fun v => v.uid == x)
      = some u := by
  induction l with
  | nil => simp at h
  | cons a l ih =>
    by_cases ha : a.uid = x
    · have h1 : (a.uid == u.uid) = true := by simp [ha, hx]
      have h2 : (u.uid == x) = true := by simp [hx]
      rw [List.map_cons, if_pos h1]
      exact List.find?_cons_of_pos _ h2
    · have h1 : ¬ ((a.uid == u.uid) = true) := by
        simp only [beq_iff_eq, hx]
        exact ha
      have h2 : ¬ ((a.uid == x) = true) := by
        simp only [beq_iff_eq]
        exact ha
      rw [List.map_cons, if_neg h1]
      rw [List.find?_cons_of_neg _ (by simpa using h2)]
      rw [List.find?_cons_of_neg _ (by simpa using h2)] at h
      exact ih h

theorem findUser_updateUser (st : St) (u : User) (x : Nat) (hx : u.uid = x)
    (h : (findUser st x).isSome = true) : findUser (updateUser st u) x = some u :=
  find?_uid_replace st.users u x hx h

theorem findUser_uid (st : St) (x : Nat) (u : User) (h : findUser st x = some u) :
    u.uid = x := by
  unfold findUser at h
  have := List.find?_some h
  simpa using this

theorem createTransactionEffect_findUser (st : St) (x : Nat) (t : String) (a : ℚ)
    (w : User) (h : findUser st x = some w) :
    findUser (createTransactionEffect st x t a) x
      = some { w with balance := w.balance + a } := by
  have hwuid : w.uid = x := findUser_uid st x w h
  have hs : (findUser st x).isSome = true := by rw [h]; rfl
  unfold createTransactionEffect
  rw [h]
  exact findUser_updateUser st { w with balance := w.balance + a } x hwuid hs

theorem createTransactionEffect_bets (st : St) (x : Nat) (t : String) (a : ℚ) :
    (createTransactionEffect st x t a).bets = st.bets := by
  unfold createTransactionEffect
  cases findUser st x <;> rfl

theorem updateOdds_bets (f : ℚ → ℚ) (st : St) (m : Market) :
    (updateOdds f st m).bets = st.bets := by
  simp only [updateOdds]
  split <;> rfl

theorem le_foldr_max (xs : List Nat) (x : Nat) (h : x ∈ xs) : x ≤ xs.foldr max 0 := by
  induction xs with
  | nil => cases h
  | cons a l ih =>
    rcases List.mem_cons.mp h with rfl | hm
    · exact le_max_left _ _
    · exact le_trans (ih hm) (le_max_right _ _)

theorem bid_ne_newBetId (st : St) (b : Bet) (h : b ∈ st.bets) :
    (b.bid == newBetId st) = false := by
  have hle : b.bid ≤ (st.bets.map (fun b => b.bid)).foldr max 0 :=
    le_foldr_max _ _ (List.mem_map_of_mem _ h)
  simp only [beq_eq_false_iff_ne, ne_eq, newBetId]
  omega

theorem find?_append_none {α : Type} (p : α → Bool) (l1 l2 : List α)
    (h : l1.find? p = none) : (l1 ++ l2).find? p = l2.find? p := by
  induction l1 with
  | nil => rfl
  | cons a l ih =>
    rw [List.find?_cons] at h
    cases hp : p a with
    | true => rw [hp] at h; cases h
    | false =>
      rw [hp] at h
      rw [List.cons_append, List.find?_cons, hp]
      exact ih h

theorem placeBetChecks_none (st : St) (uid mid : Nat) (o : String) (a : ℚ) (t : ℤ)
    (h : placeBetChecks st uid mid o a t = none) :
    (findUser st uid).isSome = true ∧ (findMarket st mid).isSome = true := by
  unfold placeBetChecks at h
  repeat' split at h
  all_goals simp_all

theorem placeBetEffect_findUser (f : ℚ → ℚ) (st : St) (uid mid : Nat) (o : String)
    (a : ℚ) (t : ℤ) (u : User) (mkt : Market)
    (hu : findUser st uid = some u) (hm : findMarket st mid = some mkt) :
    findUser (placeBetEffect f st uid mid o a t) uid
      = some { u with balance := u.balance - a + -a, totalBets := u.totalBets + 1 } := by
  have huid : u.uid = uid := findUser_uid st uid u hu
  have hstep : ∀ st' : St, findUser st' uid
        = some { u with balance := u.balance - a, totalBets := u.totalBets + 1 } →
      findUser (createTransactionEffect st' uid "bet" (-a)) uid
        = some { u with balance := u.balance - a + -a, totalBets := u.totalBets + 1 } := by
    intro st' h'
    exact createTransactionEffect_findUser st' uid "bet" (-a) _ h'
  unfold placeBetEffect
  simp only [hu, hm]
  have h1 : findUser (updateUser st
      { u with balance := u.balance - a, totalBets := u.totalBets + 1 }) uid
      = some { u with balance := u.balance - a, totalBets := u.totalBets + 1 } :=
    findUser_updateUser st _ uid huid (by rw [hu]; rfl)
  split
  · rw [findUser_updateOdds]
    exact hstep _ h1
  · rw [findUser_updateMarket, findUser_updateOdds]
    exact hstep _ h1

theorem placeBetEffect_findBet (f : ℚ → ℚ) (st : St) (uid mid : Nat) (o : String)
    (a : ℚ) (t : ℤ) (u : User) (mkt : Market)
    (hu : findUser st uid = some u) (hm : findMarket st mid = some mkt) :
    findBet (placeBetEffect f st uid mid o a t) (newBetId st)
      = some { bid := newBetId st, userId := uid, marketId := mid, option := o,
               amount := a, oddsAtTime := (mkt.currentOdds.lookup o).getD 0,
               potentialPayout := a / (mkt.currentOdds.lookup o).getD 0,
               status := .active, createdAt := t, settledAt := none,
               actualPayout := 0 } := by
  unfold placeBetEffect
  simp only [hu, hm]
  have hfind : ∀ st' : St, st'.bets = st.bets ++
        [{ bid := newBetId st, userId := uid, marketId := mid, option := o,
           amount := a, oddsAtTime := (mkt.currentOdds.lookup o).getD 0,
           potentialPayout := a / (mkt.currentOdds.lookup o).getD 0,
           status := .active, createdAt := t, settledAt := none,
           actualPayout := 0 }] →
      findBet st' (newBetId st) = some
        { bid := newBetId st, userId := uid, marketId := mid, option := o,
          amount := a, oddsAtTime := (mkt.currentOdds.lookup o).getD 0,
          potentialPayout := a / (mkt.currentOdds.lookup o).getD 0,
          status := .active, createdAt := t, settledAt := none,
          actualPayout := 0 } := by
    intro st' h'
    unfold findBet
    rw [h', find?_append_none]
    · simp [List.find?]
    · rw [List.find?_eq_none]
      intro b hb
      simp [bid_ne_newBetId st b hb]
  split
  · exact hfind _ (by
      simp [updateOdds_bets, createTransactionEffect_bets, updateUser_bets])
  · exact hfind _ (by
      simp [updateMarket_bets, updateOdds_bets, createTransactionEffect_bets,
        updateUser_bets])

theorem createTransaction_ok_findUser (st' : St) (x : Nat) (tt : String) (a : ℚ)
    (w : User) (s2 : St) (hw : findUser st' x = some w) (htt : tt ∈ txTypeEnum)
    (h : createTransaction st' x tt a = .ok s2) :
    findUser s2 x = some { w with balance := w.balance + a } := by
  unfold createTransaction at h
  rw [hw, if_pos htt] at h
  cases h
  exact createTransactionEffect_findUser st' x tt a w hw

theorem settleBetStep_ok (st : St) (betId : Nat) (res : String) (now : ℤ) (st2 : St)
    (bet : Bet) (u : User)
    (hb : findBet st betId = some bet) (hu : findUser st bet.userId = some u)
    (h : settleBetStep st betId res now = .ok st2) :
    bet.option = res
    ∧ findUser st2 bet.userId = some
        { uid := u.uid,
          balance := u.balance + bet.potentialPayout + (bet.potentialPayout - bet.amount),
          totalBets := u.totalBets + 1,
          winningBets := u.winningBets + 1,
          totalWinnings := u.totalWinnings + (bet.potentialPayout - bet.amount),
          winRate := ((u.winningBets + 1 : ℕ) : ℚ) / ((u.totalBets + 1 : ℕ) : ℚ) * 100 } := by
  have huid : u.uid = bet.userId := findUser_uid st bet.userId u hu
  unfold settleBetStep at h
  simp only [hb] at h
  rw [findUser_updateBet, hu] at h
  by_cases hopt : bet.option = res
  · refine ⟨hopt, ?_⟩
    simp only [Bet.settle, if_pos hopt, if_true] at h
    have hW : updateWinRate
        { uid := u.uid, balance := u.balance + bet.potentialPayout,
          totalBets := u.totalBets + 1, winningBets := u.winningBets + 1,
          totalWinnings := u.totalWinnings + (bet.potentialPayout - bet.amount),
          winRate := u.winRate }
        = { uid := u.uid, balance := u.balance + bet.potentialPayout,
            totalBets := u.totalBets + 1, winningBets := u.winningBets + 1,
            totalWinnings := u.totalWinnings + (bet.potentialPayout - bet.amount),
            winRate := ((u.winningBets + 1 : ℕ) : ℚ) / ((u.totalBets + 1 : ℕ) : ℚ) * 100 } := by
      unfold updateWinRate
      rw [if_pos (Nat.succ_pos _)]
    rw [hW] at h
    have hw : findUser (updateUser (updateBet st
        { bet with settledAt := some now, status := .won,
                   actualPayout := bet.potentialPayout })
        { uid := u.uid, balance := u.balance + bet.potentialPayout,
          totalBets := u.totalBets + 1, winningBets := u.winningBets + 1,
          totalWinnings := u.totalWinnings + (bet.potentialPayout - bet.amount),
          winRate := ((u.winningBets + 1 : ℕ) : ℚ) / ((u.totalBets + 1 : ℕ) : ℚ) * 100 })
        bet.userId = some
        { uid := u.uid, balance := u.balance + bet.potentialPayout,
          totalBets := u.totalBets + 1, winningBets := u.winningBets + 1,
          totalWinnings := u.totalWinnings + (bet.potentialPayout - bet.amount),
          winRate := ((u.winningBets + 1 : ℕ) : ℚ) / ((u.totalBets + 1 : ℕ) : ℚ) * 100 } := by
      apply findUser_updateUser
      · exact huid
      · rw [findUser_updateBet, hu]; rfl
    exact createTransaction_ok_findUser _ _ _ _ _ _ hw (by decide) h
  · exfalso
    simp only [Bet.settle, if_neg hopt, if_true, if_false] at h
    unfold createTransaction at h
    split at h
    · exact Except.noConfusion h
    · split at h
      · next htt => exact absurd htt (by decide)
      · exact Except.noConfusion h

/-- Claim C10.  A bet that is successfully placed and whose settlement unit
then commits at market resolution increments the owning user totalBets twice
in total, once at placement and once at settlement, and the win rate is
recomputed as winningBets / totalBets * 100 over that doubly incremented
denominator. -/
theorem c10_settlement_double_counts (f : ℚ → ℚ) (st st1 st2 : St)
    (userId marketId : Nat) (o res : String) (amount : ℚ) (now now2 : ℤ) (u : User)
    (hu : findUser st userId = some u)
    (h1 : placeBet f st userId marketId o amount now = .ok st1)
    (h2 : settleBetStep st1 (newBetId st) res now2 = .ok st2) :
    (findUser st2 userId).elim False (fun v =>
      v.totalBets = u.totalBets + 2
      ∧ v.winRate = (v.winningBets : ℚ) / (v.totalBets : ℚ) * 100) := by
  unfold placeBet at h1
  cases hc : placeBetChecks st userId marketId o amount now with
  | some e => rw [hc] at h1; exact Except.noConfusion h1
  | none =>
    rw [hc] at h1
    have hst1 : st1 = placeBetEffect f st userId marketId o amount now := by
      cases h1; rfl
    obtain ⟨hus, hms⟩ := placeBetChecks_none st userId marketId o amount now hc
    obtain ⟨mkt, hm⟩ := Option.isSome_iff_exists.mp hms
    subst hst1
    have hA := placeBetEffect_findUser f st userId marketId o amount now u mkt hu hm
    have hB := placeBetEffect_findBet f st userId marketId o amount now u mkt hu hm
    have hset := settleBetStep_ok (placeBetEffect f st userId marketId o amount now)
      (newBetId st) res now2 st2 _ _ hB hA h2
    rw [hset.2]
    simp only [Option.elim]
    refine ⟨?_, ?_⟩ <;> first | rfl | trivial

/-- Claim C10 witness: on the concrete store, user 1 places the 100-unit yes
bet, the settlement unit commits with resolution yes, and the user ends with
totalBets 2 and winRate winningBets / totalBets * 100. -/
theorem c10_settlement_double_counts_witness :
    findUser stFresh 1 = some userA
    ∧ placeBet sigHalf stFresh 1 1 "yes" 100 0 = .ok stPlaced
    ∧ settleBetStep stPlaced (newBetId stFresh) "yes" 5 = .ok stSettled
    ∧ (findUser stSettled 1).elim False (fun v =>
        v.totalBets = userA.totalBets + 2
        ∧ v.winRate = (v.winningBets : ℚ) / (v.totalBets : ℚ) * 100) := by
  have hy : ("yes" : String) ≠ "" := by decide
  have hn : ("no" : String) ≠ "yes" := by decide
  have hwin : ("win" : String) ∈ txTypeEnum := by decide
  have hu : findUser stFresh 1 = some userA := rfl
  have h1 : placeBet sigHalf stFresh 1 1 "yes" 100 0 = .ok stPlaced := by
    norm_num [placeBet, placeBetChecks, placeBetEffect, stFresh, stPlaced, userA,
      marketYN, findUser, findMarket, Market.isOpen, createTransactionEffect,
      updateUser, updateOdds, updateMarket, activeBetsOn, betOptions, poolOf,
      newBetId, calcInitialOddsQ, sigHalf, List.lookup, List.filter, List.find?,
      List.dedup, hy, hn]
  have h2 : settleBetStep stPlaced 1 "yes" 5 = .ok stSettled := by
    norm_num [settleBetStep, stPlaced, stSettled, marketYN, userA, findBet,
      findUser, Bet.settle, updateBet, updateUser, updateWinRate,
      createTransaction, createTransactionEffect, List.find?,
      List.filter, hwin]
  have h2' : settleBetStep stPlaced (newBetId stFresh) "yes" 5 = .ok stSettled := h2
  exact ⟨hu, h1, h2', c10_settlement_double_counts sigHalf stFresh stPlaced stSettled
    1 1 "yes" "yes" 100 0 5 userA hu h1 h2'⟩

namespace Pricing

theorem pool_eq_zero_of_not_hasBetOn (bets : List PBet) (o : String)
    (h : hasBetOn bets o = false) : pool bets o = 0 := by
  unfold hasBetOn at h
  unfold pool
  rw [List.filter_eq_nil_iff.mpr]
  · rfl
  · intro b hb
    intro hbo
    rw [List.any_eq_false] at h
    exact absurd hbo (h b hb)

theorem lmsr_ne_zero (L T p : ℝ) : lmsr L T p ≠ 0 := by
  unfold lmsr
  apply one_div_ne_zero
  have := Real.exp_pos (((T - p) - p) / L)
  linarith

theorem updateOddsPrice_eq_lmsr (options : List String) (t : MarketType) (L : ℝ)
    (bets : List PBet) (o : String) (hT : totalPool (activeP bets) ≠ 0)
    (ho : o ∈ options) :
    updateOddsPrice options t L bets o
      = lmsr L (totalPool (activeP bets)) (pool (activeP bets) o) := by
  unfold updateOddsPrice
  rw [if_neg hT]
  by_cases hb : hasBetOn (activeP bets) o = true
  · rw [if_pos hb]
    rw [if_neg (by
      intro hcon
      exact lmsr_ne_zero L (totalPool (activeP bets)) (pool (activeP bets) o) hcon.2)]
  · have hb2 : hasBetOn (activeP bets) o = false := by
      revert hb
      cases hasBetOn (activeP bets) o <;> simp
    rw [if_neg hb, if_pos ho, pool_eq_zero_of_not_hasBetOn (activeP bets) o hb2]
    unfold lmsr
    norm_num

theorem sigmoid_sum (x : ℝ) : 1 / (1 + Real.exp x) + 1 / (1 + Real.exp (-x)) = 1 := by
  have h1 : (1 : ℝ) + Real.exp x ≠ 0 := by
    have := Real.exp_pos x
    linarith
  have h2 : (1 : ℝ) + Real.exp (-x) ≠ 0 := by
    have := Real.exp_pos (-x)
    linarith
  have hmul : Real.exp x * Real.exp (-x) = 1 := by
    rw [← Real.exp_add]
    simp
  field_simp
  nlinarith [hmul]

theorem pool_partition (l : List PBet) (o1 o2 : String) (h12 : o1 ≠ o2)
    (hopts : ∀ b ∈ l, b.option = o1 ∨ b.option = o2) :
    pool l o1 + pool l o2 = totalPool l := by
  induction l with
  | nil => simp [pool, totalPool]
  | cons b l ih =>
    have hbl : ∀ x ∈ l, x.option = o1 ∨ x.option = o2 := fun x hx =>
      hopts x (List.mem_cons_of_mem b hx)
    have ihl := ih hbl
    unfold pool totalPool at ihl ⊢
    rcases hopts b (List.mem_cons_self b l) with hb1 | hb2
    · have e1 : (b.option == o1) = true := by simp [hb1]
      have e2 : (b.option == o2) = false := by
        simp only [beq_eq_false_iff_ne, ne_eq, hb1]
        exact h12
      simp only [List.filter_cons, e1, e2, Bool.false_eq_true, if_true, if_false,
        List.map_cons, List.sum_cons]
      linarith
    · have e1 : (b.option == o1) = false := by
        simp only [beq_eq_false_iff_ne, ne_eq, hb2]
        exact fun hcon => h12 hcon.symm
      have e2 : (b.option == o2) = true := by simp [hb2]
      simp only [List.filter_cons, e1, e2, Bool.false_eq_true, if_true, if_false,
        List.map_cons, List.sum_cons]
      linarith

end Pricing

/-- Claim C4.  For a market with positive liquidity and positive total pool,
the recomputed price of every option o equals
1 / (1 + exp (((totalPool - p) - p) / liquidity)) where p is the pool behind
o; an option with zero pool receives the value of the same formula at p = 0
(the fallback 1 / (1 + exp (totalPool / liquidity)) coincides with it). -/
theorem c4_lmsr_price_formula (options : List String) (t : MarketType) (L : ℝ)
    (bets : List Pricing.PBet) (o : String) (hL : 0 < L)
    (hT : 0 < Pricing.totalPool (Pricing.activeP bets)) (ho : o ∈ options) :
    Pricing.updateOddsPrice options t L bets o
      = 1 / (1 + Real.exp (((Pricing.totalPool (Pricing.activeP bets)
          - Pricing.pool (Pricing.activeP bets) o)
          - Pricing.pool (Pricing.activeP bets) o) / L)) :=
  Pricing.updateOddsPrice_eq_lmsr options t L bets o (ne_of_gt hT) ho

/-- Claim C4 witness: a two-option market with one 100-unit active bet on yes
and liquidity 1000 satisfies the price formula at option yes. -/
theorem c4_lmsr_price_formula_witness :
    (0 : ℝ) < 1000
    ∧ 0 < Pricing.totalPool (Pricing.activeP pbets1)
    ∧ "yes" ∈ ["yes", "no"]
    ∧ Pricing.updateOddsPrice ["yes", "no"] .multiple 1000 pbets1 "yes"
        = 1 / (1 + Real.exp (((Pricing.totalPool (Pricing.activeP pbets1)
            - Pricing.pool (Pricing.activeP pbets1) "yes")
            - Pricing.pool (Pricing.activeP pbets1) "yes") / 1000)) := by
  have hT : (0 : ℝ) < Pricing.totalPool (Pricing.activeP pbets1) := by
    norm_num [Pricing.totalPool, Pricing.activeP, pbets1, List.filter]
  exact ⟨by norm_num, hT, by simp,
    c4_lmsr_price_formula ["yes", "no"] .multiple 1000 pbets1 "yes" (by norm_num)
      hT (by simp)⟩

/-- Claim C5.  Whenever the total active pool of a market is zero, the prices
are the initial fallback: a binary market with options o1, o2 prices both at
exactly 0.5, and any non-binary market prices every one of its N options at
exactly 1 / N. -/
theorem c5_zero_pool_initial_odds (options : List String) (L : ℝ)
    (bets : List Pricing.PBet)
    (hT : Pricing.totalPool (Pricing.activeP bets) = 0) :
    (∀ o1 o2, options = [o1, o2] →
      Pricing.updateOddsPrice options .binary L bets o1 = 1/2
      ∧ Pricing.updateOddsPrice options .binary L bets o2 = 1/2)
    ∧ ∀ t, t ≠ MarketType.binary → ∀ o ∈ options,
        Pricing.updateOddsPrice options t L bets o = 1 / (options.length : ℝ) := by
  constructor
  · rintro o1 o2 rfl
    constructor
    · simp [Pricing.updateOddsPrice, hT, Pricing.initialOddsPrice]
    · simp [Pricing.updateOddsPrice, hT, Pricing.initialOddsPrice]
  · intro t ht o ho
    simp [Pricing.updateOddsPrice, hT, Pricing.initialOddsPrice, ht, ho]

/-- Claim C5 witness: with no bets, a binary yes/no market prices both options
at 0.5 and a three-option market prices each option at 1/3. -/
theorem c5_zero_pool_initial_odds_witness :
    Pricing.totalPool (Pricing.activeP ([] : List Pricing.PBet)) = 0
    ∧ Pricing.updateOddsPrice ["yes", "no"] .binary 1000 [] "yes" = 1/2
    ∧ Pricing.updateOddsPrice ["yes", "no"] .binary 1000 [] "no" = 1/2
    ∧ Pricing.updateOddsPrice ["a", "b", "c"] .multiple 1000 [] "a" = 1 / (3 : ℝ) := by
  have hT : Pricing.totalPool (Pricing.activeP ([] : List Pricing.PBet)) = 0 := by
    simp [Pricing.totalPool, Pricing.activeP]
  refine ⟨hT, ?_, ?_, ?_⟩
  · exact ((c5_zero_pool_initial_odds ["yes", "no"] 1000 [] hT).1 "yes" "no" rfl).1
  · exact ((c5_zero_pool_initial_odds ["yes", "no"] 1000 [] hT).1 "yes" "no" rfl).2
  · have := (c5_zero_pool_initial_odds ["a", "b", "c"] 1000 [] hT).2 .multiple
      (by decide) "a" (by simp)
    simpa using this

/-- Claim C6 counterexample.  The claim states that the price vector of an
open market always sums to 1 within floating-point tolerance; but on a
three-option market with liquidity 1000 and active pools 100 on a, 100 on b
and none on c, the recomputed prices are 1/2, 1/2 and 1 / (1 + exp (1/5)), so
their sum exceeds 1 + 1/5, far outside any floating-point tolerance of 1. -/
theorem c6_sum_not_one_counterexample :
    1 + 1/5 < ((opts3.map
      (Pricing.updateOddsPrice opts3 .multiple 1000 pbets2)).sum : ℝ) := by
  have hba : (("b" : String) == "a") = false := by decide
  have hab : (("a" : String) == "b") = false := by decide
  have hac : (("a" : String) == "c") = false := by decide
  have hbc : (("b" : String) == "c") = false := by decide
  have habs : Pricing.activeP pbets2 = pbets2 := by
    simp [Pricing.activeP, pbets2, List.filter]
  have hT : Pricing.totalPool pbets2 = 200 := by
    norm_num [Pricing.totalPool, pbets2]
  have hT0 : Pricing.totalPool (Pricing.activeP pbets2) ≠ 0 := by
    rw [habs, hT]; norm_num
  have hpoolA : Pricing.pool pbets2 "a" = 100 := by
    norm_num [Pricing.pool, pbets2, List.filter, hba]
  have hpoolB : Pricing.pool pbets2 "b" = 100 := by
    norm_num [Pricing.pool, pbets2, List.filter, hab]
  have hpoolC : Pricing.pool pbets2 "c" = 0 := by
    norm_num [Pricing.pool, pbets2, List.filter, hac, hbc]
  have hA : Pricing.updateOddsPrice opts3 .multiple 1000 pbets2 "a" = 1/2 := by
    rw [Pricing.updateOddsPrice_eq_lmsr opts3 .multiple 1000 pbets2 "a" hT0
      (by simp [opts3])]
    rw [habs, hT, hpoolA]
    unfold Pricing.lmsr
    norm_num [Real.exp_zero]
  have hB : Pricing.updateOddsPrice opts3 .multiple 1000 pbets2 "b" = 1/2 := by
    rw [Pricing.updateOddsPrice_eq_lmsr opts3 .multiple 1000 pbets2 "b" hT0
      (by simp [opts3])]
    rw [habs, hT, hpoolB]
    unfold Pricing.lmsr
    norm_num [Real.exp_zero]
  have hC : Pricing.updateOddsPrice opts3 .multiple 1000 pbets2 "c"
      = 1 / (1 + Real.exp (1/5)) := by
    rw [Pricing.updateOddsPrice_eq_lmsr opts3 .multiple 1000 pbets2 "c" hT0
      (by simp [opts3])]
    rw [habs, hT, hpoolC]
    unfold Pricing.lmsr
    norm_num
  have hpos : (0 : ℝ) < 1 + Real.exp (1/5) := by positivity
  have hexp : Real.exp (1/5 : ℝ) < 4 := by
    have h1 : Real.exp (1/5 : ℝ) ≤ Real.exp 1 := Real.exp_le_exp.mpr (by norm_num)
    have h2 : Real.exp (1 : ℝ) < 2.7182818286 := Real.exp_one_lt_d9
    linarith
  have hfrac : (1 : ℝ)/5 < 1 / (1 + Real.exp (1/5)) := by
    apply one_div_lt_one_div_of_lt hpos
    linarith
  simp only [opts3] at hA hB hC ⊢
  simp only [List.map_cons, List.map_nil, List.sum_cons, List.sum_nil, hA, hB, hC]
  linarith

/-- Claim C6 as amended.  The sum-to-one invariant holds exactly for binary
markets: for a two-option market whose active bets all lie on its two distinct
options, the recomputed prices of the two options sum to exactly 1 (via the
identity 1 / (1 + exp x) + 1 / (1 + exp (-x)) = 1, and 0.5 + 0.5 at zero
pool); for markets with more than two options the prices are raw independent
sigmoids and need not sum to 1. -/
theorem c6_amended_binary_sum_one (o1 o2 : String) (h12 : o1 ≠ o2) (L : ℝ)
    (bets : List Pricing.PBet)
    (hopts : ∀ b ∈ Pricing.activeP bets, b.option = o1 ∨ b.option = o2) :
    Pricing.updateOddsPrice [o1, o2] .binary L bets o1
      + Pricing.updateOddsPrice [o1, o2] .binary L bets o2 = 1 := by
  by_cases hT : Pricing.totalPool (Pricing.activeP bets) = 0
  · simp [Pricing.updateOddsPrice, hT, Pricing.initialOddsPrice]
    norm_num
  · rw [Pricing.updateOddsPrice_eq_lmsr [o1, o2] .binary L bets o1 hT (by simp),
      Pricing.updateOddsPrice_eq_lmsr [o1, o2] .binary L bets o2 hT (by simp)]
    have hp : Pricing.pool (Pricing.activeP bets) o1
        + Pricing.pool (Pricing.activeP bets) o2
        = Pricing.totalPool (Pricing.activeP bets) :=
      Pricing.pool_partition (Pricing.activeP bets) o1 o2 h12 hopts
    have hx : ((Pricing.totalPool (Pricing.activeP bets)
          - Pricing.pool (Pricing.activeP bets) o2)
          - Pricing.pool (Pricing.activeP bets) o2) / L
        = -(((Pricing.totalPool (Pricing.activeP bets)
          - Pricing.pool (Pricing.activeP bets) o1)
          - Pricing.pool (Pricing.activeP bets) o1) / L) := by
      rw [← neg_div]
      congr 1
      linarith
    unfold Pricing.lmsr
    rw [hx]
    exact Pricing.sigmoid_sum _

/-- Claim C6 amended witness: a binary yes/no market with a single 100-unit
active bet on yes has prices summing to exactly 1. -/
theorem c6_amended_binary_sum_one_witness :
    ("yes" : String) ≠ "no"
    ∧ (∀ b ∈ Pricing.activeP pbets1, b.option = "yes" ∨ b.option = "no")
    ∧ Pricing.updateOddsPrice ["yes", "no"] .binary 1000 pbets1 "yes"
        + Pricing.updateOddsPrice ["yes", "no"] .binary 1000 pbets1 "no" = 1 := by
  have h12 : ("yes" : String) ≠ "no" := by decide
  have hopts : ∀ b ∈ Pricing.activeP pbets1, b.option = "yes" ∨ b.option = "no" := by
    intro b hb
    simp [Pricing.activeP, pbets1, List.filter] at hb
    rw [hb]
    left
    rfl
  exact ⟨h12, hopts, c6_amended_binary_sum_one "yes" "no" h12 1000 pbets1 hopts⟩

end TCLMarket
